import Mathlib

/-!
Shallow embedding of the OVN network driver core (incus `internal/server/network`,
`driver_ovn.go`) together with proofs checking its natural-language specification.

Modelling conventions:
* IPv4/IPv6 addresses are natural numbers — the integer value of their bytes,
  exactly the representation the source manipulates through `big.Int`.
* Configuration maps (`map[string]string`) are association lists.
* Fallible functions return `Except String α` carrying the source's error message,
  or `Option α` when only presence matters.
-/

namespace Incus

/-- An IP range (`iprange.Range` with both ends set): inclusive start and end.
The Go field `End` is spelled `stop` because `end` is a Lean keyword. -/
structure IPRange where
  start : Nat
  stop : Nat
deriving Repr, DecidableEq

/-- The addresses of an inclusive range, from `start` to `stop` in scan order
(empty when `stop < start`, matching the loop's immediate break). -/
def IPRange.addrs (r : IPRange) : List Nat :=
  List.range' r.start (r.stop + 1 - r.start)

/-- Inner loop of `uplinkAllocateIP`: starting at `cur`, scan `fuel` consecutive
addresses (`fuel` is `end + 1 - start`, the number of loop iterations before
`startBig.Cmp(endBig) > 0` breaks), skipping any address present in
`allAllocated` (`slices.ContainsFunc(allAllocated, ip.Equal)`), and return the
first free one. -/
def scanRange (allAllocated : List Nat) : Nat → Nat → Option Nat
  | 0, _ => none
  | fuel + 1, cur =>
    if allAllocated.contains cur then scanRange allAllocated fuel (cur + 1)
    else some cur

/-- `uplinkAllocateIP` (driver_ovn.go): allocate a free IP from one of the
IP ranges, iterating the ranges in declaration order and linear-scanning each
range from its start; returns the error `"No free IPs available"` when every
range is exhausted. -/
def uplinkAllocateIP (ipRanges : List IPRange) (allAllocated : List Nat) :
    Except String Nat :=
  match ipRanges with
  | [] => .error "No free IPs available"
  | ipRange :: rest =>
    match scanRange allAllocated (ipRange.stop + 1 - ipRange.start) ipRange.start with
    | some ip => .ok ip
    | none => uplinkAllocateIP rest allAllocated

theorem scanRange_eq_find? (excl : List Nat) (fuel cur : Nat) :
    scanRange excl fuel cur =
      (List.range' cur fuel).find? (fun ip => !excl.contains ip) := by
  induction fuel generalizing cur with
  | zero => simp [scanRange]
  | succ n ih =>
    rw [List.range'_succ]
    cases h : excl.contains cur with
    | true =>
      have hm : cur ∈ excl := by simpa using h
      simp [scanRange, h, ih, List.find?_cons, hm]
    | false =>
      have hm : cur ∉ excl := by simpa using h
      simp [scanRange, h, List.find?_cons, hm]

/-- C1: `uplinkAllocateIP` returns the first address — iterating the ranges in
declaration order, scanning each from start to end — that is not in the
exclusion set (hence it is a deterministic pure function of the ranges and the
exclusion set), and it returns the error `"No free IPs available"` if and only
if every address of every range is in the exclusion set. -/
theorem uplinkAllocateIP_spec (ipRanges : List IPRange) (allAllocated : List Nat) :
    uplinkAllocateIP ipRanges allAllocated =
      (match (ipRanges.flatMap IPRange.addrs).find?
          (fun ip => !allAllocated.contains ip) with
       | some ip => .ok ip
       | none => .error "No free IPs available") ∧
    (uplinkAllocateIP ipRanges allAllocated = .error "No free IPs available" ↔
      ∀ r ∈ ipRanges, ∀ ip ∈ r.addrs, ip ∈ allAllocated) := by
  have hmain : ∀ (rs : List IPRange),
      uplinkAllocateIP rs allAllocated =
        (match (rs.flatMap IPRange.addrs).find?
            (fun ip => !allAllocated.contains ip) with
         | some ip => .ok ip
         | none => .error "No free IPs available") := by
    intro rs
    induction rs with
    | nil => simp [uplinkAllocateIP]
    | cons r rest ih =>
      rw [uplinkAllocateIP, scanRange_eq_find?]
      rw [List.flatMap_cons, List.find?_append]
      have haddr : IPRange.addrs r = List.range' r.start (r.stop + 1 - r.start) := rfl
      cases hfind : (List.range' r.start (r.stop + 1 - r.start)).find?
          (fun ip => !allAllocated.contains ip) with
      | none => rw [haddr, hfind, Option.none_or, ih]
      | some ip =>
        rw [haddr, hfind]
        rfl
  refine ⟨hmain ipRanges, ?_⟩
  rw [hmain ipRanges]
  cases hfind : (ipRanges.flatMap IPRange.addrs).find?
      (fun ip => !allAllocated.contains ip) with
  | none =>
    simp only [List.find?_eq_none, List.mem_flatMap] at hfind
    constructor
    · intro _ r hr ip hip
      have := hfind ip ⟨r, hr, hip⟩
      simpa using this
    · intro _; rfl
  | some ip =>
    have hmem := List.find?_some hfind
    have hmem' := List.mem_of_find?_eq_some hfind
    simp only [List.mem_flatMap] at hmem'
    obtain ⟨r, hr, hip⟩ := hmem'
    constructor
    · intro h; cases h
    · intro hall
      have := hall r hr ip hip
      simp at hmem
      exact absurd this hmem

/-- An IP address as the source's `net.IP`: family tag (`To4() != nil`)
plus the numeric value of its bytes. -/
structure NetIP where
  isV4 : Bool
  addr : Nat
deriving Repr, DecidableEq

/-- `getOptimalBridgeMTU` (driver_ovn.go): the MTU usable for the bridge given
the OVN underlay interface MTU and the geneve encapsulation IP
(`encapIP.To4() == nil` means IPv6 encapsulation, 78 bytes of overhead;
IPv4 encapsulation costs 58 bytes). -/
def getOptimalBridgeMTU (underlayMTU : Nat) (encapIP : NetIP) : Nat :=
  if !encapIP.isV4 then
    if underlayMTU ≥ 1578 then 1500
    else 1422
  else
    if underlayMTU ≥ 1558 then 1500
    else 1442

/-- C7: `getOptimalBridgeMTU` returns exactly one of 1500/1422/1442 (so one of
four cases over the two families): with IPv6 encapsulation, 1500 when the
underlay MTU is at least 1578 (= 1500 + 78 geneve overhead) and 1422 otherwise;
with IPv4 encapsulation, 1500 when the underlay MTU is at least
1558 (= 1500 + 58) and 1442 otherwise. -/
theorem getOptimalBridgeMTU_spec (underlayMTU : Nat) (encapIP : NetIP) :
    getOptimalBridgeMTU underlayMTU encapIP =
      (if encapIP.isV4 then if 1558 ≤ underlayMTU then 1500 else 1442
       else if 1578 ≤ underlayMTU then 1500 else 1422) ∧
    (getOptimalBridgeMTU underlayMTU encapIP = 1500 ∨
     getOptimalBridgeMTU underlayMTU encapIP = 1422 ∨
     getOptimalBridgeMTU underlayMTU encapIP = 1442) := by
  obtain ⟨v4, a⟩ := encapIP
  cases v4 <;> unfold getOptimalBridgeMTU <;>
    by_cases h1 : 1578 ≤ underlayMTU <;> by_cases h2 : 1558 ≤ underlayMTU <;>
    simp_all

/-- A parsed IPv4 CIDR (`net.ParseCIDR` result): `addr` is the full address as
written (host bits kept, the source's `ipv4Addr`), `prefixLen` the mask size of
the masked network (`ipv4Net`). -/
structure CIDR4 where
  addr : Nat
  prefixLen : Nat
deriving Repr, DecidableEq

/-- The masked network base address of the CIDR (`ipv4Net.IP`). -/
def CIDR4.base (c : CIDR4) : Nat :=
  c.addr / 2 ^ (32 - c.prefixLen) * 2 ^ (32 - c.prefixLen)

/-- The number of addresses in the subnet. -/
def CIDR4.size (c : CIDR4) : Nat := 2 ^ (32 - c.prefixLen)

/-- Modelled from the spec: `dhcpalloc.GetIP(ipv4Net, -2)` (the dnsmasq
dhcpalloc package is not under src/) — "the address at offset -2 in the IPv4
subnet", i.e. the subnet base address plus its size minus 2, computed with
big-integer arithmetic (hence `Int`, allowing the degenerate /32 underflow). -/
def CIDR4.ovnRouterReserved (c : CIDR4) : Int :=
  (c.base : Int) + (c.size : Int) - 2

/-- The `ipv6.address` minimum-size check of `Validate` (driver_ovn.go
lines 695–703): reject when the parsed IPv6 subnet's prefix length exceeds 64
(RA/DHCPv6 address generation uses EUI64). `none` input means `ipv6.address`
is unset or does not parse as a CIDR (`ipv6Net == nil`). -/
def validateIPv6SubnetSize (ipv6PrefixLen : Option Nat) : Option String :=
  match ipv6PrefixLen with
  | some ones => if ones > 64 then some "IPv6 subnet must be at least a /64" else none
  | none => none

/-- The composite subnet checks of `Validate` (driver_ovn.go lines 676–703),
reached once per-key validation and DNS-zone validation have succeeded: first
the OVN load-balancer health-check reserved-address collision check on
`ipv4.address` (`ovnRouter.Compare(addr) == 0`), then the minimum /64 size
check on `ipv6.address`. Returns the first error, or `none` when both pass
(the Go method then continues with further checks not modelled here). The
source's reserved-address message interpolates the rendered address; the
rendering is omitted here. -/
def validateSubnetChecks (ipv4 : Option CIDR4) (ipv6PrefixLen : Option Nat) :
    Option String :=
  match ipv4 with
  | some c =>
    if c.ovnRouterReserved = (c.addr : Int) then
      some "'ipv4.address' cannot be set because it is reserved for OVN load-balancer health checks"
    else validateIPv6SubnetSize ipv6PrefixLen
  | none => validateIPv6SubnetSize ipv6PrefixLen

/-- C5: provided the `ipv4.address` reserved-address check passes (so
`Validate` reaches the IPv6 size check), a configuration whose `ipv6.address`
parses with prefix length strictly greater than 64 is rejected with
`"IPv6 subnet must be at least a /64"`, and one with prefix length at most 64
(e.g. a /64 or a /48) is not rejected on this ground. -/
theorem validate_ipv6_subnet_size (ipv4 : Option CIDR4) (len : Nat)
    (hv4 : ∀ c, ipv4 = some c → c.ovnRouterReserved ≠ (c.addr : Int)) :
    (64 < len →
      validateSubnetChecks ipv4 (some len) =
        some "IPv6 subnet must be at least a /64") ∧
    (len ≤ 64 → validateSubnetChecks ipv4 (some len) = none) := by
  cases ipv4 with
  | none =>
    unfold validateSubnetChecks validateIPv6SubnetSize
    refine ⟨fun h => ?_, fun h => ?_⟩ <;> simp <;> omega
  | some c =>
    have hne := hv4 c rfl
    unfold validateSubnetChecks validateIPv6SubnetSize
    refine ⟨fun h => ?_, fun h => ?_⟩ <;> simp [hne] <;> omega

theorem validate_ipv6_subnet_size_witness :
    ((∀ c, (none : Option CIDR4) = some c → c.ovnRouterReserved ≠ (c.addr : Int)) ∧
      validateSubnetChecks none (some 80) =
        some "IPv6 subnet must be at least a /64") ∧
    validateSubnetChecks none (some 64) = none ∧
    validateSubnetChecks none (some 48) = none := by
  have h80 := validate_ipv6_subnet_size none 80 (by intro c hc; cases hc)
  have h64 := validate_ipv6_subnet_size none 64 (by intro c hc; cases hc)
  have h48 := validate_ipv6_subnet_size none 48 (by intro c hc; cases hc)
  exact ⟨⟨fun c hc => Option.noConfusion hc, h80.1 (by norm_num)⟩,
    h64.2 (by norm_num), h48.2 (by norm_num)⟩

/-- C6: `Validate` rejects a configuration whose `ipv4.address` equals the
address at offset -2 from the end of its own IPv4 subnet (reserved for OVN
load-balancer health checks), and does not return that rejection for any
`ipv4.address` differing from the reserved address. -/
theorem validate_ipv4_reserved (c : CIDR4) (ipv6PrefixLen : Option Nat) :
    (c.ovnRouterReserved = (c.addr : Int) →
      validateSubnetChecks (some c) ipv6PrefixLen =
        some "'ipv4.address' cannot be set because it is reserved for OVN load-balancer health checks") ∧
    (c.ovnRouterReserved ≠ (c.addr : Int) →
      validateSubnetChecks (some c) ipv6PrefixLen ≠
        some "'ipv4.address' cannot be set because it is reserved for OVN load-balancer health checks") := by
  constructor
  · intro h
    unfold validateSubnetChecks
    simp [h]
  · intro h
    unfold validateSubnetChecks validateIPv6SubnetSize
    simp only [if_neg h]
    cases ipv6PrefixLen with
    | none => simp
    | some ones =>
      by_cases h64 : ones > 64
      · simp [h64]
      · simp [h64]

theorem validate_ipv4_reserved_witness :
    ((⟨167772414, 24⟩ : CIDR4).ovnRouterReserved = ((167772414 : Nat) : Int) ∧
      validateSubnetChecks (some ⟨167772414, 24⟩) none =
        some "'ipv4.address' cannot be set because it is reserved for OVN load-balancer health checks") ∧
    ((⟨167772161, 24⟩ : CIDR4).ovnRouterReserved ≠ ((167772161 : Nat) : Int) ∧
      validateSubnetChecks (some ⟨167772161, 24⟩) none ≠
        some "'ipv4.address' cannot be set because it is reserved for OVN load-balancer health checks") := by
  have heq : (⟨167772414, 24⟩ : CIDR4).ovnRouterReserved = ((167772414 : Nat) : Int) := by
    simp [CIDR4.ovnRouterReserved, CIDR4.base, CIDR4.size]
  have hne : (⟨167772161, 24⟩ : CIDR4).ovnRouterReserved ≠ ((167772161 : Nat) : Int) := by
    simp [CIDR4.ovnRouterReserved, CIDR4.base, CIDR4.size]
  exact ⟨⟨heq, (validate_ipv4_reserved ⟨167772414, 24⟩ none).1 heq⟩,
    ⟨hne, (validate_ipv4_reserved ⟨167772161, 24⟩ none).2 hne⟩⟩

/-- Decimal rendering of a natural number, as `fmt.Sprintf("%d", ·)` produces
for a non-negative integer: most-significant digit first, `"0"` for zero. -/
def decimalRepr (n : Nat) : String :=
  if n = 0 then "0" else String.mk (((Nat.digits 10 n).map Nat.digitChar).reverse)

/-- The stable-MAC seed built by `getRouterMAC` (driver_ovn.go line 1125):
`fmt.Sprintf("%s.%d.%d", cert.Fingerprint(), 0, n.ID())`. -/
def mkRouterMACSeed (fingerprint : String) (id : Nat) : String :=
  fingerprint ++ "." ++ decimalRepr 0 ++ "." ++ decimalRepr id

/-- Modelled from the spec: `localUtil.GetStableRandomGenerator` composed with
`randomHwaddr` (neither function is under src/). The spec requires a "stable
pseudo-random MAC derived deterministically from a seed", generated by "a
generator algorithm stable across runs/platforms for the same seed string",
and its MAC-stability property presumes that distinct seeds produce distinct
MACs; the derivation is therefore modelled as a deterministic function of the
seed string that is injective in the seed (the seed's character codes). -/
def stableRandomHwaddr (seed : String) : List Nat :=
  seed.data.map Char.toNat

/-- `getRouterMAC` (driver_ovn.go): the explicitly configured `bridge.hwaddr`
when set, else the stable pseudo-random MAC seeded from the server certificate
fingerprint and the network's numeric ID. `net.ParseMAC` of the explicit value
is modelled as the identity on the configured string's character codes. -/
def getRouterMAC (bridgeHwaddr : String) (fingerprint : String) (id : Nat) :
    List Nat :=
  if bridgeHwaddr = "" then stableRandomHwaddr (mkRouterMACSeed fingerprint id)
  else bridgeHwaddr.data.map Char.toNat

theorem digitChar_inj_lt :
    ∀ d1 < 10, ∀ d2 < 10, Nat.digitChar d1 = Nat.digitChar d2 → d1 = d2 := by
  decide

theorem map_digitChar_inj (l1 l2 : List Nat)
    (h1 : ∀ x ∈ l1, x < 10) (h2 : ∀ x ∈ l2, x < 10)
    (h : l1.map Nat.digitChar = l2.map Nat.digitChar) : l1 = l2 := by
  induction l1 generalizing l2 with
  | nil => cases l2 <;> simp_all
  | cons a l ih =>
    cases l2 with
    | nil => simp_all
    | cons b m =>
      simp only [List.map_cons, List.cons.injEq] at h
      have ha := h1 a (by simp)
      have hb := h2 b (by simp)
      have hab := digitChar_inj_lt a ha b hb h.1
      have hrest := ih m (fun x hx => h1 x (by simp [hx]))
        (fun x hx => h2 x (by simp [hx])) h.2
      rw [hab, hrest]

theorem decimalRepr_inj (a b : Nat) (h : decimalRepr a = decimalRepr b) :
    a = b := by
  have digits_lt : ∀ n, ∀ d ∈ Nat.digits 10 n, d < 10 := by
    intro n d hd
    exact Nat.digits_lt_base (by norm_num) hd
  have data_eq : (decimalRepr a).data = (decimalRepr b).data := by rw [h]
  have single : ∀ n : Nat, n ≠ 0 →
      ((Nat.digits 10 n).map Nat.digitChar).reverse = ['0'] → False := by
    intro n hn hrev
    have hmap : (Nat.digits 10 n).map Nat.digitChar = ['0'] := by
      have := congrArg List.reverse hrev
      simpa using this
    have hdig : Nat.digits 10 n = [0] := by
      cases hd : Nat.digits 10 n with
      | nil => simp [hd] at hmap
      | cons x xs =>
        cases xs with
        | nil =>
          simp only [hd, List.map_cons, List.map_nil] at hmap
          have hx : x < 10 := digits_lt n x (by simp [hd])
          have : x = 0 := by
            have h0 : Nat.digitChar x = '0' := by simpa using hmap
            exact digitChar_inj_lt x hx 0 (by norm_num) (by simpa using h0)
          simp [this]
        | cons y ys => simp [hd] at hmap
    have : n = 0 := by
      have hof := Nat.ofDigits_digits 10 n
      rw [hdig] at hof
      simp [Nat.ofDigits] at hof
      omega
    exact hn this
  by_cases ha : a = 0 <;> by_cases hb : b = 0
  · rw [ha, hb]
  · exfalso
    apply single b hb
    have : (decimalRepr b).data = ['0'] := by
      rw [← data_eq, ha]
      rfl
    simpa [decimalRepr, hb] using this
  · exfalso
    apply single a ha
    have : (decimalRepr a).data = ['0'] := by
      rw [data_eq, hb]
      rfl
    simpa [decimalRepr, ha] using this
  · have hrev : ((Nat.digits 10 a).map Nat.digitChar).reverse =
        ((Nat.digits 10 b).map Nat.digitChar).reverse := by
      simpa [decimalRepr, ha, hb] using data_eq
    have hmap := by simpa using congrArg List.reverse hrev
    have hdig := map_digitChar_inj _ _ (digits_lt a) (digits_lt b) hmap
    have hA := Nat.ofDigits_digits 10 a
    have hB := Nat.ofDigits_digits 10 b
    rw [← hA, ← hB, hdig]

theorem stringDataEq {s t : String} (h : s.data = t.data) : s = t := by
  cases s
  cases t
  simp_all

theorem mkRouterMACSeed_inj (fp : String) (id1 id2 : Nat)
    (h : mkRouterMACSeed fp id1 = mkRouterMACSeed fp id2) : id1 = id2 := by
  have hdata : (mkRouterMACSeed fp id1).data = (mkRouterMACSeed fp id2).data := by
    rw [h]
  simp only [mkRouterMACSeed, String.data_append] at hdata
  have hrepr : (decimalRepr id1).data = (decimalRepr id2).data := by
    simpa using hdata
  exact decimalRepr_inj id1 id2 (stringDataEq hrepr)

/-- C4: with `bridge.hwaddr` unset, `getRouterMAC` is a deterministic function
of the server certificate fingerprint and the network's numeric ID — repeated
invocation with the same fingerprint and ID returns the identical MAC (the
embedding is a pure function of exactly these inputs, mirroring the stable
seeded generator), and two different network IDs under the same fingerprint
return different MACs (their seeds differ, and the spec-modelled generator is
injective in the seed). -/
theorem getRouterMAC_stable (fp : String) (id1 id2 : Nat) :
    getRouterMAC "" fp id1 = getRouterMAC "" fp id1 ∧
    (id1 ≠ id2 → getRouterMAC "" fp id1 ≠ getRouterMAC "" fp id2) := by
  refine ⟨rfl, fun hne heq => hne ?_⟩
  simp only [getRouterMAC, if_pos rfl, stableRandomHwaddr] at heq
  have mapCharInj : ∀ l1 l2 : List Char, l1.map Char.toNat = l2.map Char.toNat → l1 = l2 := by
    intro l1 l2 hl
    induction l1 generalizing l2 with
    | nil => cases l2 <;> simp_all
    | cons c cs ih =>
      cases l2 with
      | nil => simp_all
      | cons d ds =>
        simp only [List.map_cons, List.cons.injEq] at hl
        have hcd : c = d := Char.eq_of_val_eq (UInt32.ext hl.1)
        rw [hcd, ih ds hl.2]
  exact mkRouterMACSeed_inj fp id1 id2 (stringDataEq (mapCharInj _ _ heq))

theorem getRouterMAC_stable_witness :
    (1 : Nat) ≠ 2 ∧ getRouterMAC "" "fingerprint" 1 ≠ getRouterMAC "" "fingerprint" 2 := by
  refine ⟨by norm_num, ?_⟩
  exact (getRouterMAC_stable "fingerprint" 1 2).2 (by norm_num)

/-- An `iprange.Range` as stored in the DHCPv4 reservation list: a start IP and
an optional range end (`End == nil`, spelled `stop`, marks a single-address
reservation). -/
structure DHCPRange where
  start : Nat
  stop : Option Nat
deriving Repr, DecidableEq

/-- `hasDHCPv4Reservation` (driver_ovn.go lines 4332–4340): whether the
reservation list holds a single-address entry (nil end) whose start equals
`ip`. -/
def hasDHCPv4Reservation (dhcpReservations : List DHCPRange) (ip : Nat) : Bool :=
  dhcpReservations.any fun r => r.start == ip && r.stop == none

/-- The guarded single-address reservation append performed identically by
`InstanceDevicePortAdd` (driver_ovn.go lines 4313–4323) and
`InstanceDevicePortStart` (lines 4614–4624): append `iprange.Range{Start: ip}`
to the list fetched from the switch unless `hasDHCPv4Reservation` already finds
a single-address entry for `ip`. -/
def addDHCPv4Reservation (dhcpReservations : List DHCPRange) (ip : Nat) :
    List DHCPRange :=
  if hasDHCPv4Reservation dhcpReservations ip then dhcpReservations
  else dhcpReservations ++ [⟨ip, none⟩]

/-- The DHCPv4 reservation-list invariant: no two single-address entries
(nil end) share the same start IP. -/
def NoDupSingles (l : List DHCPRange) : Prop :=
  l.Pairwise fun a b => ¬(a.stop = none ∧ b.stop = none ∧ a.start = b.start)

/-- C9: both reservation-appending code paths first check
`hasDHCPv4Reservation`, so a reservation list without duplicate single-address
entries still has none after the guarded append. -/
theorem addDHCPv4Reservation_noDupSingles (l : List DHCPRange) (ip : Nat)
    (h : NoDupSingles l) : NoDupSingles (addDHCPv4Reservation l ip) := by
  unfold addDHCPv4Reservation
  by_cases hres : hasDHCPv4Reservation l ip
  · simpa [hres] using h
  · simp only [hres, if_false, Bool.false_eq_true]
    unfold NoDupSingles at h ⊢
    rw [List.pairwise_append]
    refine ⟨h, by simp, ?_⟩
    intro a ha b hb
    simp only [List.mem_singleton] at hb
    subst hb
    rintro ⟨hstop, -, hstart⟩
    apply hres
    unfold hasDHCPv4Reservation
    rw [List.any_eq_true]
    exact ⟨a, ha, by simp [hstart, hstop]⟩

theorem addDHCPv4Reservation_noDupSingles_witness :
    NoDupSingles [⟨5, none⟩] ∧ NoDupSingles (addDHCPv4Reservation [⟨5, none⟩] 5) := by
  have hpre : NoDupSingles [⟨5, none⟩] := by
    unfold NoDupSingles
    simp
  exact ⟨hpre, addDHCPv4Reservation_noDupSingles [⟨5, none⟩] 5 hpre⟩

/-- Modelled from the spec: `SubnetContainsIP(subnet, ip)` (the subnet/address
utility package is not under src/) — CIDR containment of an address in a
masked IPv4 subnet: the address agrees with the subnet base on the prefix
bits. -/
def subnetContainsIP4 (subnet : CIDR4) (ip : NetIP) : Bool :=
  ip.addr / 2 ^ (32 - subnet.prefixLen) == subnet.addr / 2 ^ (32 - subnet.prefixLen)

/-- The sticky dynamic-IPv4 decision of `InstanceDevicePortStart`
(driver_ovn.go lines 4389–4424): the IPv4 address the switch-port creation will
request statically, `none` meaning OVN-managed dynamic allocation.
* `ipv4cfg` — the NIC device's static `ipv4.address` (`none` for `""`);
* `lastStateIPs` — `opts.LastStateIPs` in order;
* `dhcpv4Subnet` — `n.DHCPv4Subnet()` (`none` disables the whole branch);
* `dhcpReservations` — the switch's current DHCPv4 reservations;
* `existingPortIPs` — the IP sets of all existing switch ports
  (`GetLogicalSwitchIPs`).
The sticky candidate is searched only when no static address is configured
(`opts.DeviceConfig["ipv4.address"] == ""`); it is the first last-state entry
that is IPv4 (`To4() != nil`) and inside the DHCPv4 subnet; it is requested
unless it has a single-address DHCPv4 reservation or appears in some existing
port's IP set (`IPInSlice`). -/
def stickyIPv4Request (ipv4cfg : Option Nat) (lastStateIPs : List NetIP)
    (dhcpv4Subnet : Option CIDR4) (dhcpReservations : List DHCPRange)
    (existingPortIPs : List (List NetIP)) : Option Nat :=
  match dhcpv4Subnet with
  | none => ipv4cfg
  | some sub =>
    match ipv4cfg with
    | some v => some v
    | none =>
      match lastStateIPs.find? (fun e => e.isV4 && subnetContainsIP4 sub e) with
      | none => none
      | some sticky =>
        if hasDHCPv4Reservation dhcpReservations sticky.addr then none
        else if existingPortIPs.any (fun ips => ips.contains sticky) then none
        else some sticky.addr

/-- C2: for a NIC with no static `ipv4.address` whose `LastStateIPs` yields a
sticky candidate (the first IPv4 entry inside the current DHCPv4 subnet): if
that address has no single-address DHCPv4 reservation and appears in no
existing switch port's IP set, the port creation requests exactly that address
statically; if it is reserved or bound to another port, no static address is
requested and dynamic allocation is used. -/
theorem instanceDevicePortStart_stickyIPv4 (lastStateIPs : List NetIP)
    (sub : CIDR4) (dhcpReservations : List DHCPRange)
    (existingPortIPs : List (List NetIP)) (sticky : NetIP)
    (hfind : lastStateIPs.find? (fun e => e.isV4 && subnetContainsIP4 sub e) =
      some sticky) :
    (hasDHCPv4Reservation dhcpReservations sticky.addr = false →
      existingPortIPs.any (fun ips => ips.contains sticky) = false →
      stickyIPv4Request none lastStateIPs (some sub) dhcpReservations
        existingPortIPs = some sticky.addr) ∧
    (hasDHCPv4Reservation dhcpReservations sticky.addr = true ∨
      existingPortIPs.any (fun ips => ips.contains sticky) = true →
      stickyIPv4Request none lastStateIPs (some sub) dhcpReservations
        existingPortIPs = none) := by
  constructor
  · intro hres hbound
    have hbound' : ∀ x ∈ existingPortIPs, sticky ∉ x := by simpa using hbound
    simp [stickyIPv4Request, hfind, hres]
    exact hbound'
  · intro hcase
    rcases hcase with hres | hbound
    · simp [stickyIPv4Request, hfind, hres]
    · by_cases hres : hasDHCPv4Reservation dhcpReservations sticky.addr
      · simp [stickyIPv4Request, hfind, hres]
      · have hbound' : ∃ x ∈ existingPortIPs, sticky ∈ x := by simpa using hbound
        simp [stickyIPv4Request, hfind, hres]
        exact hbound'

theorem instanceDevicePortStart_stickyIPv4_witness :
    ([⟨true, 167772165⟩] : List NetIP).find?
        (fun e => e.isV4 && subnetContainsIP4 ⟨167772160, 24⟩ e) =
      some ⟨true, 167772165⟩ ∧
    hasDHCPv4Reservation [] 167772165 = false ∧
    ([] : List (List NetIP)).any (fun ips => ips.contains ⟨true, 167772165⟩) = false ∧
    stickyIPv4Request none [⟨true, 167772165⟩] (some ⟨167772160, 24⟩) [] [] =
      some 167772165 := by
  have hfind : ([⟨true, 167772165⟩] : List NetIP).find?
      (fun e => e.isV4 && subnetContainsIP4 ⟨167772160, 24⟩ e) =
      some ⟨true, 167772165⟩ := by decide
  refine ⟨hfind, by decide, by decide, ?_⟩
  exact (instanceDevicePortStart_stickyIPv4 [⟨true, 167772165⟩] ⟨167772160, 24⟩
    [] [] ⟨true, 167772165⟩ hfind).1 (by decide) (by decide)

/-- An OVN load-balancer target (`networkOVN.OVNLoadBalancerTarget`): address
plus port (0 = unset, the Go zero value). -/
structure OVNLoadBalancerTarget where
  address : NetIP
  port : Nat := 0
deriving Repr, DecidableEq

/-- An OVN load-balancer VIP (`networkOVN.OVNLoadBalancerVIP`); protocol `""`
and listen port 0 are the Go zero values used for the default-target entry. -/
structure OVNLoadBalancerVIP where
  listenAddress : NetIP
  protocol : String := ""
  listenPort : Nat := 0
  targets : List OVNLoadBalancerTarget
deriving Repr, DecidableEq

/-- The target half of a `forwardPortMap`: target address and port list. -/
structure ForwardTarget where
  address : NetIP
  ports : List Nat
deriving Repr, DecidableEq

/-- A `forwardPortMap`: listen ports, protocol and target. -/
structure ForwardPortMap where
  listenPorts : List Nat
  protocol : String
  target : ForwardTarget
deriving Repr, DecidableEq

/-- The per-listen-port target-port choice inside `forwardFlattenVIPs`
(driver_ovn.go lines 5476–5486): default the listen port, override with the
single target port when exactly one is given, else with the `i`-th target port
when more than one is given. `none` models the Go runtime panic
(`index out of range`) when more than one target port is given but the listen
port index exceeds the target port count. -/
def targetPortFor (ports : List Nat) (i lp : Nat) : Option Nat :=
  if ports.length = 1 then ports[0]?
  else if ports.length > 1 then ports[i]?
  else some lp

/-- The VIP built for one listen port of a port map. -/
def portMapVIP (listenAddress : NetIP) (pm : ForwardPortMap) (lp tp : Nat) :
    OVNLoadBalancerVIP :=
  { listenAddress := listenAddress, protocol := pm.protocol, listenPort := lp,
    targets := [{ address := pm.target.address, port := tp }] }

/-- The inner loop of `forwardFlattenVIPs` over one port map's listen ports,
carrying the index `i`. -/
def flattenPortMapPorts (listenAddress : NetIP) (pm : ForwardPortMap) :
    Nat → List Nat → Option (List OVNLoadBalancerVIP)
  | _, [] => some []
  | i, lp :: rest =>
    match targetPortFor pm.target.ports i lp with
    | none => none
    | some tp =>
      match flattenPortMapPorts listenAddress pm (i + 1) rest with
      | none => none
      | some tail => some (portMapVIP listenAddress pm lp tp :: tail)

/-- The outer loop of `forwardFlattenVIPs` over the port maps. -/
def flattenPortMaps (listenAddress : NetIP) :
    List ForwardPortMap → Option (List OVNLoadBalancerVIP)
  | [] => some []
  | pm :: rest =>
    match flattenPortMapPorts listenAddress pm 0 pm.listenPorts with
    | none => none
    | some vips =>
      match flattenPortMaps listenAddress rest with
      | none => none
      | some tail => some (vips ++ tail)

/-- `forwardFlattenVIPs` (driver_ovn.go lines 5463–5503): flatten a forward's
default target and port maps into OVN load-balancer VIPs. `none` models the Go
runtime panic on an out-of-range target-port index. -/
def forwardFlattenVIPs (listenAddress : NetIP) (defaultTargetAddress : Option NetIP)
    (portMaps : List ForwardPortMap) : Option (List OVNLoadBalancerVIP) :=
  match flattenPortMaps listenAddress portMaps with
  | none => none
  | some vips =>
    some ((match defaultTargetAddress with
           | some dt => [{ listenAddress := listenAddress,
                           targets := [{ address := dt }] }]
           | none => []) ++ vips)

/-- C3 counterexample: with listen ports `[80, 81]` and three target ports
`[1, 2, 3]` (neither exactly one nor equal in count), the claim's "otherwise
each listen port is reused as its own target port" predicts target ports
80 and 81, but the source's `targetPortsLen > 1` branch maps positionally to
target ports 1 and 2. -/
theorem forwardFlattenVIPs_counterexample :
    forwardFlattenVIPs ⟨true, 1⟩ none
        [⟨[80, 81], "tcp", ⟨⟨true, 5⟩, [1, 2, 3]⟩⟩] =
      some [portMapVIP ⟨true, 1⟩ ⟨[80, 81], "tcp", ⟨⟨true, 5⟩, [1, 2, 3]⟩⟩ 80 1,
            portMapVIP ⟨true, 1⟩ ⟨[80, 81], "tcp", ⟨⟨true, 5⟩, [1, 2, 3]⟩⟩ 81 2] ∧
    forwardFlattenVIPs ⟨true, 1⟩ none
        [⟨[80, 81], "tcp", ⟨⟨true, 5⟩, [1, 2, 3]⟩⟩] ≠
      some [portMapVIP ⟨true, 1⟩ ⟨[80, 81], "tcp", ⟨⟨true, 5⟩, [1, 2, 3]⟩⟩ 80 80,
            portMapVIP ⟨true, 1⟩ ⟨[80, 81], "tcp", ⟨⟨true, 5⟩, [1, 2, 3]⟩⟩ 81 81] := by
  decide

/-- The amended port-to-port mapping rule, written from the amended claim: one
target port is used for every listen port; two or more target ports map the
`i`-th listen port to the `i`-th target port; no target ports reuse each listen
port as its own target port. -/
def specTargetPort (ports : List Nat) (i lp : Nat) : Nat :=
  if ports.length = 1 then ports.headD 0
  else if ports.length > 1 then ports.getD i 0
  else lp

/-- Spec-side VIP list for one port map under the amended rule. -/
def specPortMapVIPs (listenAddress : NetIP) (pm : ForwardPortMap) :
    Nat → List Nat → List OVNLoadBalancerVIP
  | _, [] => []
  | i, lp :: rest =>
    portMapVIP listenAddress pm lp (specTargetPort pm.target.ports i lp) ::
      specPortMapVIPs listenAddress pm (i + 1) rest

/-- Spec-side flattening under the amended rule: one VIP per listen port,
each carrying the listen address and the port map's target address, preceded
by the default-target VIP when a default target address is given. -/
def specForwardFlattenVIPs (listenAddress : NetIP)
    (defaultTargetAddress : Option NetIP) (portMaps : List ForwardPortMap) :
    List OVNLoadBalancerVIP :=
  (match defaultTargetAddress with
   | some dt => [{ listenAddress := listenAddress, targets := [{ address := dt }] }]
   | none => []) ++
    portMaps.flatMap fun pm => specPortMapVIPs listenAddress pm 0 pm.listenPorts

theorem flattenPortMapPorts_eq_spec (la : NetIP) (pm : ForwardPortMap)
    (i : Nat) (lps : List Nat)
    (h : 1 < pm.target.ports.length → i + lps.length ≤ pm.target.ports.length) :
    flattenPortMapPorts la pm i lps = some (specPortMapVIPs la pm i lps) := by
  induction lps generalizing i with
  | nil => rfl
  | cons lp rest ih =>
    have htp : targetPortFor pm.target.ports i lp =
        some (specTargetPort pm.target.ports i lp) := by
      unfold targetPortFor specTargetPort
      by_cases h1 : pm.target.ports.length = 1
      · cases hp : pm.target.ports with
        | nil => rw [hp] at h1; simp at h1
        | cons p ps =>
          rw [hp] at h1
          cases ps with
          | nil => simp [hp, h1]
          | cons q qs => simp at h1
      · by_cases h2 : 1 < pm.target.ports.length
        · have hi : i < pm.target.ports.length := by
            have := h h2
            simp only [List.length_cons] at this
            omega
          simp [h1, h2, List.getElem?_eq_getElem hi, List.getD_eq_getElem?_getD]
        · simp [h1, h2]
    rw [flattenPortMapPorts, htp, specPortMapVIPs]
    have hrest : flattenPortMapPorts la pm (i + 1) rest =
        some (specPortMapVIPs la pm (i + 1) rest) := by
      apply ih
      intro h2
      have := h h2
      simp only [List.length_cons] at this
      omega
    rw [hrest]

theorem flattenPortMaps_eq_spec (la : NetIP) (pms : List ForwardPortMap)
    (hlen : ∀ pm ∈ pms, 1 < pm.target.ports.length →
      pm.listenPorts.length ≤ pm.target.ports.length) :
    flattenPortMaps la pms =
      some (pms.flatMap fun pm => specPortMapVIPs la pm 0 pm.listenPorts) := by
  induction pms with
  | nil => rfl
  | cons pm rest ih =>
    rw [flattenPortMaps, flattenPortMapPorts_eq_spec la pm 0 pm.listenPorts
      (fun h2 => by simpa using hlen pm (by simp) h2)]
    rw [ih (fun p hp h2 => hlen p (by simp [hp]) h2), List.flatMap_cons]

/-- C3 amended: for every port map whose target port count is one, zero, or at
least its listen port count (the source indexes out of range otherwise):
exactly one target port is used for every listen port; two or more target
ports map the i-th listen port to the i-th target port; zero target ports
reuse each listen port as its own target port. Each listen port yields exactly
one VIP carrying the given listen address and the port map's target address. -/
theorem forwardFlattenVIPs_amended (la : NetIP) (dflt : Option NetIP)
    (pms : List ForwardPortMap)
    (hlen : ∀ pm ∈ pms, 1 < pm.target.ports.length →
      pm.listenPorts.length ≤ pm.target.ports.length) :
    forwardFlattenVIPs la dflt pms = some (specForwardFlattenVIPs la dflt pms) := by
  unfold forwardFlattenVIPs specForwardFlattenVIPs
  rw [flattenPortMaps_eq_spec la pms hlen]

theorem forwardFlattenVIPs_amended_witness :
    (∀ pm ∈ [(⟨[80, 81], "tcp", ⟨⟨true, 5⟩, [1, 2, 3]⟩⟩ : ForwardPortMap)],
      1 < pm.target.ports.length →
      pm.listenPorts.length ≤ pm.target.ports.length) ∧
    forwardFlattenVIPs ⟨true, 1⟩ none
        [⟨[80, 81], "tcp", ⟨⟨true, 5⟩, [1, 2, 3]⟩⟩] =
      some (specForwardFlattenVIPs ⟨true, 1⟩ none
        [⟨[80, 81], "tcp", ⟨⟨true, 5⟩, [1, 2, 3]⟩⟩]) := by
  refine ⟨by decide, ?_⟩
  exact forwardFlattenVIPs_amended ⟨true, 1⟩ none
    [⟨[80, 81], "tcp", ⟨⟨true, 5⟩, [1, 2, 3]⟩⟩] (by decide)

/-- A BGP-announced prefix entry held by the BGP collaborator (`state.BGP`):
the prefix (host-route address plus length), next-hop and owner tag.
`AddPrefix` appends an entry; `RemovePrefixByOwner` drops every entry with the
given owner. -/
structure BGPEntry where
  prefixAddr : NetIP
  prefixLen : Nat
  nextHop : NetIP
  owner : String
deriving Repr, DecidableEq

/-- The load-balancer-specific BGP owner tag
(`fmt.Sprintf("network_%d_load_balancer", n.id)`), distinct from the
network's own prefixes and from the forward owner tag. -/
def bgpLBOwner (id : Nat) : String :=
  "network_" ++ decimalRepr id ++ "_load_balancer"

/-- A parsed network subnet of either family (the `netSubnet` obtained from
`ipv4.address`/`ipv6.address`). -/
structure Subnet where
  isV4 : Bool
  addr : Nat
  prefixLen : Nat
deriving Repr, DecidableEq

/-- Address-family bit width of the subnet. -/
def Subnet.width (s : Subnet) : Nat := if s.isV4 then 32 else 128

/-- `netSubnet.Contains(listenAddr)`: same family and agreeing prefix bits. -/
def Subnet.containsIP (s : Subnet) (ip : NetIP) : Bool :=
  ip.isV4 == s.isV4 &&
    (ip.addr / 2 ^ (s.width - s.prefixLen) == s.addr / 2 ^ (s.width - s.prefixLen))

/-- The NAT skip condition of `loadBalancerBGPSetupPrefixes`' export loop:
`natEnabled && netSubnet != nil && netSubnet.Contains(listenAddr)`. -/
def natSkip (natEnabled : Bool) (netSubnet : Option Subnet) (a : NetIP) : Bool :=
  natEnabled && netSubnet.any fun s => s.containsIP a

/-- One family iteration of `loadBalancerBGPSetupPrefixes`' export loop
(driver_ovn.go lines 7593–7645): among the load-balancer listen addresses of
the family, skip those inside the family's NAT-enabled subnet (`natSkip`),
skip those whose load balancer is not online (the `online` oracle abstracts
the southbound `CheckLoadBalancerOnline` probe over the tcp/udp balancer
objects: true when any backend responds, UDP backends counting as always
online), and emit a host-route prefix (/32 for IPv4, /128 for IPv6) with the
family's BGP next-hop under the load-balancer owner tag. -/
def lbFamilyPrefixes (id : Nat) (v4 : Bool) (lbAddrs : List NetIP)
    (natEnabled : Bool) (netSubnet : Option Subnet) (nextHop : NetIP)
    (online : NetIP → Bool) : List BGPEntry :=
  (lbAddrs.filter fun a => a.isV4 == v4).filterMap fun a =>
    if natSkip natEnabled netSubnet a then none
    else if online a then
      some ⟨a, if v4 then 32 else 128, nextHop, bgpLBOwner id⟩
    else none

set_option linter.unusedVariables false in
/-- `loadBalancerBGPSetupPrefixes` (driver_ovn.go lines 7546–7648) acting on
the BGP table `st`: load the network's load-balancer listen addresses from the
database (`GetNetworkLoadBalancers`), clear every prefix under the
load-balancer owner tag (`RemovePrefixByOwner`), then re-add the exportable
host routes, IPv4 family first. The network's forward listen addresses
(`forwardListenAddresses`, also in the database) are NOT consulted by this
function — forwards are exported separately by `forwardBGPSetupPrefixes`
under a different owner tag. -/
def loadBalancerBGPSetupPrefixes (st : List BGPEntry) (id : Nat)
    (lbListenAddresses : List NetIP) (forwardListenAddresses : List NetIP)
    (nat4 nat6 : Bool) (subnet4 subnet6 : Option Subnet)
    (nextHop4 nextHop6 : NetIP) (online : NetIP → Bool) : List BGPEntry :=
  (st.filter fun e => e.owner != bgpLBOwner id) ++
    lbFamilyPrefixes id true lbListenAddresses nat4 subnet4 nextHop4 online ++
    lbFamilyPrefixes id false lbListenAddresses nat6 subnet6 nextHop6 online

/-- C8 counterexample: a network state whose database holds one forward listen
address (IPv4 `5`, online, NAT disabled, outside any subnet) and no load
balancers: the claim requires the invocation to add a /32 host route for that
forward listen address, but `loadBalancerBGPSetupPrefixes` reads only the
load-balancer records and leaves the table empty. -/
theorem loadBalancerBGPSetupPrefixes_counterexample :
    loadBalancerBGPSetupPrefixes [] 7 [] [⟨true, 5⟩] false false none none
        ⟨true, 9⟩ ⟨true, 9⟩ (fun _ => true) = [] ∧
    (⟨⟨true, 5⟩, 32, ⟨true, 9⟩, bgpLBOwner 7⟩ : BGPEntry) ∉
      loadBalancerBGPSetupPrefixes [] 7 [] [⟨true, 5⟩] false false none none
        ⟨true, 9⟩ ⟨true, 9⟩ (fun _ => true) := by
  constructor
  · rfl
  · intro h
    rw [show loadBalancerBGPSetupPrefixes [] 7 [] [⟨true, 5⟩] false false none none
        ⟨true, 9⟩ ⟨true, 9⟩ (fun _ => true) = [] from rfl] at h
    exact List.not_mem_nil _ h

theorem lbFamilyPrefixes_owner (id : Nat) (v4 : Bool) (lbAddrs : List NetIP)
    (natEnabled : Bool) (netSubnet : Option Subnet) (nextHop : NetIP)
    (online : NetIP → Bool) :
    ∀ e ∈ lbFamilyPrefixes id v4 lbAddrs natEnabled netSubnet nextHop online,
      e.owner = bgpLBOwner id := by
  intro e he
  simp only [lbFamilyPrefixes, List.mem_filterMap] at he
  obtain ⟨a, -, ha⟩ := he
  by_cases hnat : natSkip natEnabled netSubnet a = true
  · simp [hnat] at ha
  · simp only [Bool.not_eq_true] at hnat
    rw [hnat] at ha
    by_cases hon : online a = true
    · simp only [hon, if_true, if_false, Bool.false_eq_true, Option.some.injEq] at ha
      rw [← ha]
    · simp [hon] at ha

theorem lbFamilyPrefixes_mem (id : Nat) (v4 : Bool) (lbAddrs : List NetIP)
    (natEnabled : Bool) (netSubnet : Option Subnet) (nextHop : NetIP)
    (online : NetIP → Bool) (e : BGPEntry) :
    e ∈ lbFamilyPrefixes id v4 lbAddrs natEnabled netSubnet nextHop online ↔
      ∃ a, a ∈ lbAddrs ∧ a.isV4 = v4 ∧
        natSkip natEnabled netSubnet a = false ∧
        online a = true ∧
        e = ⟨a, if v4 then 32 else 128, nextHop, bgpLBOwner id⟩ := by
  simp only [lbFamilyPrefixes, List.mem_filterMap, List.mem_filter, beq_iff_eq]
  constructor
  · rintro ⟨a, ⟨hmem, hfam⟩, ha⟩
    by_cases hnat : natSkip natEnabled netSubnet a = true
    · simp [hnat] at ha
    · simp only [Bool.not_eq_true] at hnat
      rw [hnat] at ha
      by_cases hon : online a = true
      · simp only [hon, if_true, if_false, Bool.false_eq_true, Option.some.injEq] at ha
        exact ⟨a, hmem, hfam, hnat, hon, ha.symm⟩
      · simp [hon] at ha
  · rintro ⟨a, hmem, hfam, hnat, hon, he⟩
    refine ⟨a, ⟨hmem, hfam⟩, ?_⟩
    rw [hnat, hon, he]
    simp

/-- C8 amended: every invocation of `loadBalancerBGPSetupPrefixes` first
removes all BGP prefixes under this network's load-balancer owner tag (all
other owners' entries survive unchanged), then adds a host-route prefix (/32
for IPv4, /128 for IPv6, with the family's next-hop) for a load-balancer
listen address if and only if the address is not inside the family's
NAT-enabled subnet and its load balancer is online; consequently the function
is idempotent per invocation. (The network's forward listen addresses are not
exported here; `forwardBGPSetupPrefixes` handles them under its own tag.) -/
theorem loadBalancerBGPSetupPrefixes_amended (st : List BGPEntry) (id : Nat)
    (lbAddrs fwdAddrs : List NetIP) (nat4 nat6 : Bool)
    (subnet4 subnet6 : Option Subnet) (nextHop4 nextHop6 : NetIP)
    (online : NetIP → Bool) :
    ((loadBalancerBGPSetupPrefixes st id lbAddrs fwdAddrs nat4 nat6 subnet4
        subnet6 nextHop4 nextHop6 online).filter
          (fun e => e.owner != bgpLBOwner id) =
      st.filter (fun e => e.owner != bgpLBOwner id)) ∧
    (∀ e : BGPEntry,
      (e ∈ loadBalancerBGPSetupPrefixes st id lbAddrs fwdAddrs nat4 nat6
          subnet4 subnet6 nextHop4 nextHop6 online ∧
        e.owner = bgpLBOwner id) ↔
      ∃ a, a ∈ lbAddrs ∧
        natSkip (if a.isV4 then nat4 else nat6)
          (if a.isV4 then subnet4 else subnet6) a = false ∧
        online a = true ∧
        e = ⟨a, if a.isV4 then 32 else 128,
              if a.isV4 then nextHop4 else nextHop6, bgpLBOwner id⟩) ∧
    (loadBalancerBGPSetupPrefixes
        (loadBalancerBGPSetupPrefixes st id lbAddrs fwdAddrs nat4 nat6 subnet4
          subnet6 nextHop4 nextHop6 online)
        id lbAddrs fwdAddrs nat4 nat6 subnet4 subnet6 nextHop4 nextHop6 online =
      loadBalancerBGPSetupPrefixes st id lbAddrs fwdAddrs nat4 nat6 subnet4
        subnet6 nextHop4 nextHop6 online) := by
  have hfilter4 : (lbFamilyPrefixes id true lbAddrs nat4 subnet4 nextHop4
      online).filter (fun e => e.owner != bgpLBOwner id) = [] := by
    rw [List.filter_eq_nil_iff]
    intro e he
    have := lbFamilyPrefixes_owner id true lbAddrs nat4 subnet4 nextHop4 online e he
    simp [this]
  have hfilter6 : (lbFamilyPrefixes id false lbAddrs nat6 subnet6 nextHop6
      online).filter (fun e => e.owner != bgpLBOwner id) = [] := by
    rw [List.filter_eq_nil_iff]
    intro e he
    have := lbFamilyPrefixes_owner id false lbAddrs nat6 subnet6 nextHop6 online e he
    simp [this]
  have hclear : (loadBalancerBGPSetupPrefixes st id lbAddrs fwdAddrs nat4 nat6
      subnet4 subnet6 nextHop4 nextHop6 online).filter
        (fun e => e.owner != bgpLBOwner id) =
      st.filter (fun e => e.owner != bgpLBOwner id) := by
    unfold loadBalancerBGPSetupPrefixes
    rw [List.filter_append, List.filter_append, hfilter4, hfilter6,
      List.filter_filter]
    simp
  refine ⟨hclear, ?_, ?_⟩
  · intro e
    constructor
    · rintro ⟨hmem, howner⟩
      unfold loadBalancerBGPSetupPrefixes at hmem
      rw [List.mem_append, List.mem_append] at hmem
      rcases hmem with (hmem | hmem) | hmem
      · rw [List.mem_filter] at hmem
        rw [howner] at hmem
        simp at hmem
      · rw [lbFamilyPrefixes_mem] at hmem
        obtain ⟨a, hmem, hfam, hnat, hon, he⟩ := hmem
        exact ⟨a, hmem, by simpa [hfam] using hnat, hon, by rw [he]; simp [hfam]⟩
      · rw [lbFamilyPrefixes_mem] at hmem
        obtain ⟨a, hmem, hfam, hnat, hon, he⟩ := hmem
        exact ⟨a, hmem, by simpa [hfam] using hnat, hon, by rw [he]; simp [hfam]⟩
    · rintro ⟨a, hmem, hnat, hon, he⟩
      have howner : e.owner = bgpLBOwner id := by rw [he]
      refine ⟨?_, howner⟩
      unfold loadBalancerBGPSetupPrefixes
      rw [List.mem_append, List.mem_append]
      cases hfam : a.isV4 with
      | true =>
        refine Or.inl (Or.inr ?_)
        rw [lbFamilyPrefixes_mem]
        exact ⟨a, hmem, hfam, by simpa [hfam] using hnat, hon,
          by rw [he]; simp [hfam]⟩
      | false =>
        refine Or.inr ?_
        rw [lbFamilyPrefixes_mem]
        exact ⟨a, hmem, hfam, by simpa [hfam] using hnat, hon,
          by rw [he]; simp [hfam]⟩
  · conv_lhs => rw [loadBalancerBGPSetupPrefixes]
    rw [hclear]
    rfl

/-- An observable side effect of a network-forward or load-balancer creation,
ordered as the source performs them. -/
inductive NetEffect where
  | validation
  | dbWrite
  | ovnMutation
deriving Repr, DecidableEq

/-- Go `map[string]string` lookup: empty string when the key is absent. -/
def cfgGet (config : List (String × String)) (key : String) : String :=
  (((config.find? fun kv => kv.1 == key).map fun kv => kv.2).getD "")

/-- `ForwardCreate` (driver_ovn.go lines 5506–5509): the guard
`n.config["network"] == "none"` returns an error before anything else runs;
the remainder of the method (validation, DB transaction, OVN mutations,
notifications) is abstracted as the effect trace `restEffects` and outcome
`restError` it would otherwise produce. Result: the effects performed and the
error returned. -/
def forwardCreate (config : List (String × String)) (restEffects : List NetEffect)
    (restError : Option String) : List NetEffect × Option String :=
  if cfgGet config "network" = "none" then
    ([], some "Isolated OVN network cannot use network forwards")
  else (restEffects, restError)

/-- `LoadBalancerCreate` (driver_ovn.go lines 5955–5958): same isolated-network
guard, with the load-balancer error message. -/
def loadBalancerCreate (config : List (String × String))
    (restEffects : List NetEffect) (restError : Option String) :
    List NetEffect × Option String :=
  if cfgGet config "network" = "none" then
    ([], some "Isolated OVN network cannot use network load balancers")
  else (restEffects, restError)

/-- C10: on a network whose `network` config key is `"none"`, `ForwardCreate`
and `LoadBalancerCreate` return their isolated-network error with an empty
effect trace — no validation, database write, or control-plane mutation
happens, whatever the rest of the method would have done. -/
theorem isolated_network_no_forward_or_lb (config : List (String × String))
    (restEffects : List NetEffect) (restError : Option String)
    (h : cfgGet config "network" = "none") :
    forwardCreate config restEffects restError =
      ([], some "Isolated OVN network cannot use network forwards") ∧
    loadBalancerCreate config restEffects restError =
      ([], some "Isolated OVN network cannot use network load balancers") := by
  unfold forwardCreate loadBalancerCreate
  rw [if_pos h, if_pos h]
  exact ⟨rfl, rfl⟩

theorem isolated_network_no_forward_or_lb_witness :
    cfgGet [("network", "none")] "network" = "none" ∧
    forwardCreate [("network", "none")] [NetEffect.dbWrite] none =
      ([], some "Isolated OVN network cannot use network forwards") ∧
    loadBalancerCreate [("network", "none")] [NetEffect.dbWrite] none =
      ([], some "Isolated OVN network cannot use network load balancers") := by
  refine ⟨by decide, ?_⟩
  exact isolated_network_no_forward_or_lb [("network", "none")]
    [NetEffect.dbWrite] none (by decide)

end Incus
